import Mathlib

/-!
Verification of the resilient frame-extraction pipeline of the video-search
repository (`src/extractFramesNative.ts` and the frame-encoder worker).

The TypeScript code is shallowly embedded as pure Lean functions:

* `seekWithRetry` models `NativeVideoFrameExtractor.seekWithRetry`; the
  outcome of each underlying `seekToTime` call is an input
  (`Nat → SeekResult`, 1-based attempt numbers), and the trace records every
  `seekToTime` invocation and every `reinitializeVideo` call, in order.
* `encoderOnMessage` models the encoder worker's `self.onmessage` handler.
  Opaque browser image values are embedded symbolically: a canvas snapshot is
  identified by the frame index drawn onto it, `toDataURL(mime, q)` by a
  `DataURL` record, `convertToBlob` by an `EncodedBlob` record holding the
  drawn bitmap, the rendered label and the encoding parameters.
* `extractFrames` models the extraction loop of
  `NativeVideoFrameExtractor.extractFrames`.  The environment gives, for each
  frame index, the per-attempt seek outcomes and whether the video element
  reports non-zero dimensions.  Besides the `frames` array that the method
  returns, the model keeps ghost observation fields: every frame ever pushed
  (the `onFrame` emissions), the captured indices, every `encodeBatch` call
  with its `startingIndex`, every observed length of `bitmapBatch` after a
  mutation, the number of video re-creations, and the fatal outcome.
-/

namespace VideoSearch

/-- Outcome of one underlying `seekToTime` call: resolves, or rejects with an
error message (seek timeout or media error). -/
inductive SeekResult where
  | ok : SeekResult
  | err : String → SeekResult
deriving DecidableEq

/-- Observable actions of `seekWithRetry`: a `seekToTime` call (with its
1-based attempt number) or a full `reinitializeVideo` of the decode session. -/
inductive SeekEvent where
  | attempt : Nat → SeekEvent
  | reinit : SeekEvent
deriving DecidableEq

/-- Error thrown by `seekWithRetry` after all retries are exhausted:
`Failed to seek to (timestamp)s after 3 attempts. Last error: (lastError)`.
Timestamps are nonnegative whole seconds in every claim, so they are
modelled as naturals. -/
structure SeekFailure where
  timestamp : Nat
  lastError : String
deriving DecidableEq

/-- Trace of one `seekWithRetry` call: ordered events plus the outcome
(`none` means the seek eventually succeeded). -/
structure SeekTrace where
  events : List SeekEvent
  outcome : Option SeekFailure
deriving DecidableEq

/-- Number of `seekToTime` invocations in a trace. -/
def SeekTrace.attempts (t : SeekTrace) : Nat :=
  t.events.countP fun e => match e with | .attempt _ => true | .reinit => false

/-- Number of `reinitializeVideo` invocations in a trace. -/
def SeekTrace.reinits (t : SeekTrace) : Nat :=
  t.events.countP fun e => match e with | .attempt _ => false | .reinit => true

/-- `const MAX_SEEK_RETRIES = 3` in `seekWithRetry`. -/
def MAX_SEEK_RETRIES : Nat := 3

/-- The `for (attempt = 1; attempt <= MAX_SEEK_RETRIES; attempt++)` loop of
`seekWithRetry`, starting at attempt number `attempt`.  `fuel` is the number
of loop iterations still allowed (`MAX_SEEK_RETRIES - attempt + 1` at every
real call site, so the `0` case is unreachable).  On a failed attempt with
`attempt < MAX_SEEK_RETRIES` the video is reinitialized and the loop retries;
on the last attempt the failure is rethrown with the timestamp and the last
underlying error. -/
def seekWithRetryGo (timestamp : Nat) (out : Nat → SeekResult) :
    Nat → Nat → SeekTrace
  | _, 0 => ⟨[], some ⟨timestamp, "unreachable"⟩⟩
  | attempt, fuel + 1 =>
    match out attempt with
    | .ok => ⟨[.attempt attempt], none⟩
    | .err e =>
      if attempt < MAX_SEEK_RETRIES then
        let t := seekWithRetryGo timestamp out (attempt + 1) fuel
        ⟨.attempt attempt :: .reinit :: t.events, t.outcome⟩
      else
        ⟨[.attempt attempt], some ⟨timestamp, e⟩⟩

/-- Model of `seekWithRetry(timestamp, file)`: attempts start at 1. -/
def seekWithRetry (timestamp : Nat) (out : Nat → SeekResult) : SeekTrace :=
  seekWithRetryGo timestamp out 1 MAX_SEEK_RETRIES

/-- An `ImageBitmap` captured from the working canvas: its dimensions and the
frame index whose picture it holds. -/
structure Bitmap where
  width : Nat
  height : Nat
  picture : Nat
deriving DecidableEq

/-- Result of `offscreenCanvas.convertToBlob` in the worker, recorded
symbolically: the bitmap drawn, the label text value rendered onto the strip
(`i + startingIndex`), the canvas dimensions, and the encoding parameters. -/
structure EncodedBlob where
  source : Bitmap
  label : ℤ
  canvasWidth : Nat
  canvasHeight : Nat
  format : String
  quality : ℚ
deriving DecidableEq

/-- What the worker posts back, plus whether an `OffscreenCanvas` was ever
allocated while handling the message. -/
structure WorkerOutput where
  blobs : List EncodedBlob
  canvasCreated : Bool
deriving DecidableEq

/-- `const labelHeight = 20` in the worker. -/
def labelHeight : Nat := 20

/-- The worker's `for (let i = 0; i < bitmaps.length; i++)` loop: draws each
bitmap, renders the label `i + startingIndex`, and converts the canvas to a
WebP blob at quality 0.8. -/
def encodeLoop (startingIndex : ℤ) (cw ch : Nat) : Nat → List Bitmap → List EncodedBlob
  | _, [] => []
  | i, bmp :: rest =>
    { source := bmp, label := (i : ℤ) + startingIndex, canvasWidth := cw,
      canvasHeight := ch, format := "image/webp", quality := 0.8 }
      :: encodeLoop startingIndex cw ch (i + 1) rest

/-- Model of the encoder worker's `self.onmessage` handler: an empty batch is
answered with an empty blob list before any canvas is created; otherwise the
canvas is sized from the first bitmap plus the label strip and every bitmap
is encoded in arrival order. -/
def encoderOnMessage : List Bitmap → ℤ → WorkerOutput
  | [], _ => ⟨[], false⟩
  | first :: rest, startingIndex =>
    let canvasWidth := first.width
    let canvasHeight := first.height + labelHeight
    ⟨encodeLoop startingIndex canvasWidth canvasHeight 0 (first :: rest), true⟩

/-- Result of `canvas.toDataURL(mime, quality)`, recorded symbolically: the
frame index drawn on the canvas and the encoding parameters. -/
structure DataURL where
  picture : Nat
  mime : String
  quality : ℚ
deriving DecidableEq

/-- The `ExtractedFrame` interface: preview data URL, timestamp in seconds,
and the optional compressed blob (`undefined` until filled). -/
structure ExtractedFrame where
  data : DataURL
  timestamp : Nat
  blob : Option EncodedBlob
deriving DecidableEq

/-- The `FrameExtractionOptions` interface (all fields optional). -/
structure FrameExtractionOptions where
  quality : Option ℚ
  maxWidth : Option Nat
  maxHeight : Option Nat
  frameInterval : Option Nat

/-- `this.options` after the constructor applied defaults. -/
structure ResolvedOptions where
  quality : ℚ
  maxWidth : Nat
  maxHeight : Nat
  frameInterval : Nat
deriving DecidableEq

/-- The constructor of `NativeVideoFrameExtractor`:
`quality ?? 1`, `maxWidth ?? 1024`, `maxHeight ?? 1024`, `frameInterval ?? 1`. -/
def resolveOptions (o : FrameExtractionOptions) : ResolvedOptions :=
  { quality := o.quality.getD 1
    maxWidth := o.maxWidth.getD 1024
    maxHeight := o.maxHeight.getD 1024
    frameInterval := o.frameInterval.getD 1 }

/-- `setupCanvas(videoWidth, videoHeight)`: aspect-ratio-preserving downscale
bounded by `maxWidth` and `maxHeight`, rounded to whole pixels. -/
def setupCanvas (opts : ResolvedOptions) (videoWidth videoHeight : ℚ) : Nat × Nat :=
  let aspect := videoWidth / videoHeight
  let w0 := videoWidth
  let h0 := videoHeight
  let w1 := if w0 > (opts.maxWidth : ℚ) then (opts.maxWidth : ℚ) else w0
  let h1 := if w0 > (opts.maxWidth : ℚ) then w1 / aspect else h0
  let h2 := if h1 > (opts.maxHeight : ℚ) then (opts.maxHeight : ℚ) else h1
  let w2 := if h1 > (opts.maxHeight : ℚ) then h2 * aspect else w1
  ((round w2).toNat, (round h2).toNat)

/-- Metadata resolved by `loadVideo`: duration in seconds and native
dimensions. -/
structure VideoMetadata where
  duration : Nat
  width : ℚ
  height : ℚ

/-- Per-frame environment: the outcome of each underlying `seekToTime`
attempt for this frame (1-based), and whether the video element reports
non-zero `videoWidth`/`videoHeight` at capture time. -/
structure FrameEnv where
  seekOut : Nat → SeekResult
  dimsOk : Bool

/-- Whether the iteration for frame `i` takes the catch path: either
`seekWithRetry` exhausted its retries, or the dimension check threw. -/
def frameFails (opts : ResolvedOptions) (env : Nat → FrameEnv) (i : Nat) : Bool :=
  (seekWithRetry (i * opts.frameInterval) (env i).seekOut).outcome.isSome
    || !(env i).dimsOk

/-- The fatal error thrown when `consecutiveFailures` reaches
`MAX_CONSECUTIVE_FAILURES`. -/
structure FatalError where
  consecutiveFailures : Nat
  atIndex : Nat
deriving DecidableEq

/-- One `encodeBatch` call: the `startingIndex` argument (a JS number, which
can be negative), the batch sent, and the blobs the worker returned. -/
structure FlushEvent where
  startingIndex : ℤ
  batch : List Bitmap
  blobs : List EncodedBlob
deriving DecidableEq

/-- State of the extraction loop.  `frames`, `bitmapBatch`,
`framesExtracted` and `consecutiveFailures` are the mutable variables of
`extractFrames`; the remaining fields are ghost observations: `emitted` is
every frame ever pushed (the `onFrame` calls), `captured` the indices of
those frames, `flushes` every `encodeBatch` call, `obs` the length of
`bitmapBatch` after each mutation of it, `reinits` the total number of video
re-creations. -/
structure LoopState where
  frames : List ExtractedFrame
  bitmapBatch : List Bitmap
  framesExtracted : Nat
  consecutiveFailures : Nat
  emitted : List ExtractedFrame
  captured : List Nat
  flushes : List FlushEvent
  obs : List Nat
  reinits : Nat

/-- `const MAX_CONSECUTIVE_FAILURES = 3`. -/
def MAX_CONSECUTIVE_FAILURES : Nat := 3

/-- `const FLUSH_INTERVAL = 120`. -/
def FLUSH_INTERVAL : Nat := 120

/-- `canvas.toDataURL('image/jpeg', 0.3)` for the canvas holding frame `i`. -/
def mkDataURL (i : Nat) : DataURL :=
  { picture := i, mime := "image/jpeg", quality := 0.3 }

/-- The `ExtractedFrame` pushed for frame index `i`: preview data URL,
timestamp `i * frameInterval`, `blob: undefined`. -/
def mkFrame (opts : ResolvedOptions) (i : Nat) : ExtractedFrame :=
  { data := mkDataURL i, timestamp := i * opts.frameInterval, blob := none }

/-- The successful-capture body of the loop for frame `i`: draw, preview,
push the bitmap and the placeholder frame, bump counters, and flush the
batch through `encodeBatch(bitmapBatch, i - bitmapBatch.length)` whenever
`framesExtracted` is a positive multiple of `FLUSH_INTERVAL` (the flush also
empties the `frames` array). -/
def captureStep (opts : ResolvedOptions) (canvas : Nat × Nat) (i : Nat)
    (s : LoopState) : LoopState :=
  let bitmap : Bitmap := { width := canvas.1, height := canvas.2, picture := i }
  let frame : ExtractedFrame := mkFrame opts i
  let s1 : LoopState := { s with
    bitmapBatch := s.bitmapBatch ++ [bitmap]
    obs := s.obs ++ [s.bitmapBatch.length + 1]
    frames := s.frames ++ [frame]
    emitted := s.emitted ++ [frame]
    captured := s.captured ++ [i]
    framesExtracted := s.framesExtracted + 1
    consecutiveFailures := 0 }
  if 0 < s1.framesExtracted ∧ s1.framesExtracted % FLUSH_INTERVAL = 0 then
    let startingIndex : ℤ := (i : ℤ) - (s1.bitmapBatch.length : ℤ)
    let blobs := (encoderOnMessage s1.bitmapBatch startingIndex).blobs
    { s1 with
      flushes := s1.flushes ++ [⟨startingIndex, s1.bitmapBatch, blobs⟩]
      frames := []
      bitmapBatch := []
      obs := s1.obs ++ [0] }
  else s1

/-- The catch path of the loop body: increment `consecutiveFailures` and, if
it reached `MAX_CONSECUTIVE_FAILURES`, abort the whole extraction. -/
def failStep (s : LoopState) (i : Nat) : LoopState × Option FatalError :=
  let s1 : LoopState := { s with consecutiveFailures := s.consecutiveFailures + 1 }
  if MAX_CONSECUTIVE_FAILURES ≤ s1.consecutiveFailures then
    (s1, some ⟨s1.consecutiveFailures, i⟩)
  else (s1, none)

/-- One iteration of `for (let i = 0; i < totalFrames; i++)`: run
`seekWithRetry`, then either capture the frame or take the catch path.
Reinitializations performed inside `seekWithRetry` are counted either way. -/
def stepFrame (opts : ResolvedOptions) (canvas : Nat × Nat) (env : Nat → FrameEnv)
    (i : Nat) (s : LoopState) : LoopState × Option FatalError :=
  let t := seekWithRetry (i * opts.frameInterval) (env i).seekOut
  let s0 : LoopState := { s with reinits := s.reinits + t.reinits }
  match t.outcome with
  | none =>
    if (env i).dimsOk then (captureStep opts canvas i s0, none)
    else failStep s0 i
  | some _ => failStep s0 i

/-- The extraction loop over the given frame indices, stopping at the first
fatal error. -/
def extractLoop (opts : ResolvedOptions) (canvas : Nat × Nat)
    (env : Nat → FrameEnv) : List Nat → LoopState → LoopState × Option FatalError
  | [], s => (s, none)
  | i :: rest, s =>
    match stepFrame opts canvas env i s with
    | (s1, none) => extractLoop opts canvas env rest s1
    | (s1, some f) => (s1, some f)

/-- The loop state at entry of `extractFrames`. -/
def startState : LoopState :=
  ⟨[], [], 0, 0, [], [], [], [], 0⟩

/-- Observable result of one `extractFrames` run.  `frames` is the array the
method returns (meaningful when `fatal = none`; on a fatal error the method
throws instead). -/
structure RunResult where
  frames : List ExtractedFrame
  emitted : List ExtractedFrame
  captured : List Nat
  flushes : List FlushEvent
  obs : List Nat
  reinits : Nat
  fatal : Option FatalError

/-- `Math.floor(duration / frameInterval)`: natural division, since the
duration and interval are nonnegative whole numbers in the model. -/
def totalFramesOf (options : FrameExtractionOptions) (meta : VideoMetadata) : Nat :=
  meta.duration / (resolveOptions options).frameInterval

/-- Model of `NativeVideoFrameExtractor.extractFrames`: resolve options,
set up the canvas, run the loop over `0 … totalFrames-1`, and encode any
remaining batch through `encodeBatch(bitmapBatch, totalFrames -
bitmapBatch.length)` (this final flush clears only `bitmapBatch`, not
`frames`). -/
def extractFrames (options : FrameExtractionOptions) (meta : VideoMetadata)
    (env : Nat → FrameEnv) : RunResult :=
  let opts := resolveOptions options
  let canvas := setupCanvas opts meta.width meta.height
  let totalFrames := totalFramesOf options meta
  match extractLoop opts canvas env (List.range totalFrames) startState with
  | (s, some f) => ⟨s.frames, s.emitted, s.captured, s.flushes, s.obs, s.reinits, some f⟩
  | (s, none) =>
    if 0 < s.bitmapBatch.length then
      let startingIndex : ℤ := (totalFrames : ℤ) - (s.bitmapBatch.length : ℤ)
      let blobs := (encoderOnMessage s.bitmapBatch startingIndex).blobs
      ⟨s.frames, s.emitted, s.captured,
        s.flushes ++ [⟨startingIndex, s.bitmapBatch, blobs⟩],
        s.obs ++ [0], s.reinits, none⟩
    else
      ⟨s.frames, s.emitted, s.captured, s.flushes, s.obs, s.reinits, none⟩

/-- Options argument with every field omitted (all defaults apply). -/
def defaultOptions : FrameExtractionOptions :=
  ⟨none, none, none, none⟩

/-- A source whose metadata reports the given duration at 640×360. -/
def metaOf (d : Nat) : VideoMetadata :=
  ⟨d, 640, 360⟩

/-- Environment in which every seek succeeds on the first attempt and the
video always has valid dimensions. -/
def envAllOk : Nat → FrameEnv :=
  fun _ => ⟨fun _ => SeekResult.ok, true⟩

/-- Number of `reinitializeVideo` calls performed while processing frame `i`. -/
def seekReinits (opts : ResolvedOptions) (env : Nat → FrameEnv) (i : Nat) : Nat :=
  (seekWithRetry (i * opts.frameInterval) (env i).seekOut).reinits

/-- The `ImageBitmap` captured for frame `i` on the given canvas. -/
def bmpOf (canvas : Nat × Nat) (i : Nat) : Bitmap :=
  ⟨canvas.1, canvas.2, i⟩

/-! ### Behaviour of `seekWithRetry` -/

/-- Complete case analysis of the retry loop: it runs at most
`MAX_SEEK_RETRIES = 3` attempts, reinitializes between attempts, and on total
failure reports the timestamp together with the last underlying error. -/
theorem seekWithRetry_eq (t : Nat) (out : Nat → SeekResult) :
    seekWithRetry t out =
      match out 1 with
      | .ok => ⟨[.attempt 1], none⟩
      | .err _ =>
        match out 2 with
        | .ok => ⟨[.attempt 1, .reinit, .attempt 2], none⟩
        | .err _ =>
          match out 3 with
          | .ok => ⟨[.attempt 1, .reinit, .attempt 2, .reinit, .attempt 3], none⟩
          | .err e => ⟨[.attempt 1, .reinit, .attempt 2, .reinit, .attempt 3], some ⟨t, e⟩⟩ := by
  rcases h1 : out 1 with _ | e1 <;>
    rcases h2 : out 2 with _ | e2 <;>
      rcases h3 : out 3 with _ | e3 <;>
        simp [seekWithRetry, seekWithRetryGo, MAX_SEEK_RETRIES, h1, h2, h3]

/-! ### Behaviour of the encoder worker -/

theorem encodeLoop_length (K : ℤ) (cw ch : Nat) :
    ∀ (i : Nat) (l : List Bitmap), (encodeLoop K cw ch i l).length = l.length := by
  intro i l
  induction l generalizing i with
  | nil => rfl
  | cons b rest ih => simp [encodeLoop, ih]

theorem encodeLoop_map_source (K : ℤ) (cw ch : Nat) :
    ∀ (i : Nat) (l : List Bitmap),
      (encodeLoop K cw ch i l).map EncodedBlob.source = l := by
  intro i l
  induction l generalizing i with
  | nil => rfl
  | cons b rest ih => simp [encodeLoop, ih]

theorem encodeLoop_map_label (K : ℤ) (cw ch : Nat) :
    ∀ (i : Nat) (l : List Bitmap),
      (encodeLoop K cw ch i l).map EncodedBlob.label =
        (List.range l.length).map (fun j => ((i + j : Nat) : ℤ) + K) := by
  intro i l
  induction l generalizing i with
  | nil => rfl
  | cons b rest ih =>
    simp only [encodeLoop, List.map_cons, List.length_cons, List.range_succ_eq_map,
      List.map_map, ih (i + 1)]
    congr 1
    apply List.map_congr_left
    intro j _
    simp only [Function.comp_apply]
    push_cast
    ring

theorem encodeLoop_mem_format (K : ℤ) (cw ch : Nat) :
    ∀ (i : Nat) (l : List Bitmap) (b : EncodedBlob), b ∈ encodeLoop K cw ch i l →
      b.format = "image/webp" ∧ b.quality = 0.8 := by
  intro i l
  induction l generalizing i with
  | nil => intro b h; cases h
  | cons x rest ih =>
    intro b h
    simp only [encodeLoop, List.mem_cons] at h
    rcases h with h | h
    · subst h; exact ⟨rfl, rfl⟩
    · exact ih (i + 1) b h

/-! ### Characterization of one loop iteration -/

theorem failStep_eq (s : LoopState) (i : Nat) :
    failStep s i =
      ({ s with consecutiveFailures := s.consecutiveFailures + 1 },
        if MAX_CONSECUTIVE_FAILURES ≤ s.consecutiveFailures + 1 then
          some ⟨s.consecutiveFailures + 1, i⟩
        else none) := by
  unfold failStep
  split <;> rename_i h <;> simp [h]

theorem stepFrame_of_fail (opts : ResolvedOptions) (canvas : Nat × Nat)
    (env : Nat → FrameEnv) (i : Nat) (s : LoopState)
    (h : frameFails opts env i = true) :
    stepFrame opts canvas env i s =
      failStep { s with reinits := s.reinits + seekReinits opts env i } i := by
  unfold stepFrame frameFails at *
  rcases hout : (seekWithRetry (i * opts.frameInterval) (env i).seekOut).outcome with _ | f
  · rcases hd : (env i).dimsOk
    · simp [hout, hd, seekReinits]
    · simp [hout, hd] at h
  · simp [hout, seekReinits]

theorem stepFrame_of_ok (opts : ResolvedOptions) (canvas : Nat × Nat)
    (env : Nat → FrameEnv) (i : Nat) (s : LoopState)
    (h : frameFails opts env i = false) :
    stepFrame opts canvas env i s =
      (captureStep opts canvas i
        { s with reinits := s.reinits + seekReinits opts env i }, none) := by
  unfold stepFrame frameFails at *
  rcases hout : (seekWithRetry (i * opts.frameInterval) (env i).seekOut).outcome with _ | f
  · rcases hd : (env i).dimsOk
    · simp [hout, hd] at h
    · simp [hout, hd, seekReinits]
  · simp [hout] at h

/-! ### The extraction loop -/

theorem extractLoop_nil (opts : ResolvedOptions) (canvas : Nat × Nat)
    (env : Nat → FrameEnv) (s : LoopState) :
    extractLoop opts canvas env [] s = (s, none) := rfl

theorem extractLoop_cons (opts : ResolvedOptions) (canvas : Nat × Nat)
    (env : Nat → FrameEnv) (i : Nat) (rest : List Nat) (s : LoopState) :
    extractLoop opts canvas env (i :: rest) s =
      match stepFrame opts canvas env i s with
      | (s1, none) => extractLoop opts canvas env rest s1
      | (s1, some f) => (s1, some f) := rfl

theorem extractLoop_append (opts : ResolvedOptions) (canvas : Nat × Nat)
    (env : Nat → FrameEnv) (l1 l2 : List Nat) (s : LoopState) :
    extractLoop opts canvas env (l1 ++ l2) s =
      match extractLoop opts canvas env l1 s with
      | (s1, none) => extractLoop opts canvas env l2 s1
      | (s1, some f) => (s1, some f) := by
  induction l1 generalizing s with
  | nil => simp [extractLoop_nil]
  | cons i rest ih =>
    rw [List.cons_append, extractLoop_cons, extractLoop_cons]
    rcases h : stepFrame opts canvas env i s with ⟨s1, f⟩
    rcases f with _ | f
    · exact ih s1
    · rfl

/-! ### Closed form of a run in which every capture succeeds -/


def flushEvtOf (canvas : Nat × Nat) (k : Nat) : FlushEvent :=
  let batch := (List.range' (FLUSH_INTERVAL * k) FLUSH_INTERVAL).map (bmpOf canvas)
  let startingIndex : ℤ := (FLUSH_INTERVAL : ℤ) * k - 1
  ⟨startingIndex, batch, (encoderOnMessage batch startingIndex).blobs⟩

def obsOf (n : Nat) : List Nat :=
  (List.range n).flatMap fun j =>
    if (j + 1) % FLUSH_INTERVAL = 0 then [j % FLUSH_INTERVAL + 1, 0]
    else [j % FLUSH_INTERVAL + 1]

theorem obsOf_succ (n : Nat) :
    obsOf (n + 1) = obsOf n ++
      (if (n + 1) % FLUSH_INTERVAL = 0 then [n % FLUSH_INTERVAL + 1, 0]
       else [n % FLUSH_INTERVAL + 1]) := by
  simp [obsOf, List.range_succ]

theorem map_range'_concat {α : Type} (f : Nat → α) (s m : Nat) :
    (List.range' s m).map f ++ [f (s + m)] = (List.range' s (m + 1)).map f := by
  rw [List.range'_1_concat, List.map_append]
  rfl

theorem extractLoop_allOk (opts : ResolvedOptions) (canvas : Nat × Nat)
    (env : Nat → FrameEnv) (henv : ∀ i, frameFails opts env i = false) (n : Nat) :
    extractLoop opts canvas env (List.range n) startState =
      (⟨(List.range' (FLUSH_INTERVAL * (n / FLUSH_INTERVAL)) (n % FLUSH_INTERVAL)).map (mkFrame opts),
        (List.range' (FLUSH_INTERVAL * (n / FLUSH_INTERVAL)) (n % FLUSH_INTERVAL)).map (bmpOf canvas),
        n, 0,
        (List.range n).map (mkFrame opts),
        List.range n,
        (List.range (n / FLUSH_INTERVAL)).map (flushEvtOf canvas),
        obsOf n,
        ((List.range n).map (seekReinits opts env)).sum⟩,
       none) := by
  induction n with
  | zero => rfl
  | succ n ih =>
    rw [List.range_succ, extractLoop_append, ih]
    simp only []
    rw [extractLoop_cons, stepFrame_of_ok _ _ _ _ _ (henv n)]
    simp only [extractLoop_nil]
    obtain ⟨K, R, hn, hR⟩ : ∃ K R, n = FLUSH_INTERVAL * K + R ∧ R < FLUSH_INTERVAL :=
      ⟨n / FLUSH_INTERVAL, n % FLUSH_INTERVAL, by unfold FLUSH_INTERVAL; omega,
        by unfold FLUSH_INTERVAL; omega⟩
    subst hn
    have hbmp : ∀ x : Nat,
        ({ width := canvas.1, height := canvas.2, picture := x } : Bitmap) = bmpOf canvas x :=
      fun _ => rfl
    have hdiv : (FLUSH_INTERVAL * K + R) / FLUSH_INTERVAL = K := by
      unfold FLUSH_INTERVAL at *; omega
    have hmod : (FLUSH_INTERVAL * K + R) % FLUSH_INTERVAL = R := by
      unfold FLUSH_INTERVAL at *; omega
    unfold captureStep
    simp only [hdiv, hmod, hbmp, obsOf_succ, List.range_succ, List.map_append,
      List.sum_append, List.map_cons, List.map_nil, List.sum_cons, List.sum_nil,
      List.length_append, List.length_map, List.length_range', List.length_cons,
      List.length_nil, Nat.add_zero]
    by_cases hf : R = FLUSH_INTERVAL - 1
    · subst hf
      have hc : 0 < FLUSH_INTERVAL * K + (FLUSH_INTERVAL - 1) + 1 ∧
          (FLUSH_INTERVAL * K + (FLUSH_INTERVAL - 1) + 1) % FLUSH_INTERVAL = 0 := by
        unfold FLUSH_INTERVAL; omega
      have hdiv2 : (FLUSH_INTERVAL * K + (FLUSH_INTERVAL - 1) + 1) / FLUSH_INTERVAL = K + 1 := by
        unfold FLUSH_INTERVAL; omega
      rw [if_pos hc]
      simp only [hdiv2, hc.2, List.range'_zero]
      have hFF : FLUSH_INTERVAL - 1 + 1 = FLUSH_INTERVAL := by unfold FLUSH_INTERVAL; omega
      have hstart : (↑(FLUSH_INTERVAL * K + (FLUSH_INTERVAL - 1)) - ↑(FLUSH_INTERVAL - 1 + (0 + 1)) : ℤ) =
          (FLUSH_INTERVAL : ℤ) * K - 1 := by
        unfold FLUSH_INTERVAL
        push_cast
        ring
      have hbatch : List.map (bmpOf canvas) (List.range' (FLUSH_INTERVAL * K) (FLUSH_INTERVAL - 1)) ++
            [bmpOf canvas (FLUSH_INTERVAL * K + (FLUSH_INTERVAL - 1))] =
          List.map (bmpOf canvas) (List.range' (FLUSH_INTERVAL * K) FLUSH_INTERVAL) := by
        rw [map_range'_concat, hFF]
      rw [List.range_succ, List.map_append, hstart, hbatch]
      simp only [List.map_nil, List.append_assoc, List.singleton_append]
      rfl
    · have hc : ¬(0 < FLUSH_INTERVAL * K + R + 1 ∧
          (FLUSH_INTERVAL * K + R + 1) % FLUSH_INTERVAL = 0) := by
        unfold FLUSH_INTERVAL at *; omega
      rw [if_neg hc]
      have hdiv2 : (FLUSH_INTERVAL * K + R + 1) / FLUSH_INTERVAL = K := by
        unfold FLUSH_INTERVAL at *; omega
      have hmod2 : (FLUSH_INTERVAL * K + R + 1) % FLUSH_INTERVAL = R + 1 := by
        unfold FLUSH_INTERVAL at *; omega
      simp only [hdiv2, hmod2, Nat.succ_ne_zero, if_false]
      rw [map_range'_concat, map_range'_concat]



/-- The final flush event of an all-success run of `T` frames whose last
batch is partial: `encodeBatch(bitmapBatch, totalFrames - bitmapBatch.length)`. -/
def finalFlushEvtOf (canvas : Nat × Nat) (T : Nat) : FlushEvent :=
  let batch := (List.range' (FLUSH_INTERVAL * (T / FLUSH_INTERVAL)) (T % FLUSH_INTERVAL)).map (bmpOf canvas)
  let startingIndex : ℤ := (T : ℤ) - ((T % FLUSH_INTERVAL : Nat) : ℤ)
  ⟨startingIndex, batch, (encoderOnMessage batch startingIndex).blobs⟩

/-- Closed form of a whole `extractFrames` run in which every capture
succeeds and the frame count is an exact multiple of `FLUSH_INTERVAL`
(no final partial batch, hence no end-of-stream flush). -/
theorem extractFrames_allOk_exact (options : FrameExtractionOptions)
    (meta : VideoMetadata) (env : Nat → FrameEnv)
    (henv : ∀ i, frameFails (resolveOptions options) env i = false)
    (hT : totalFramesOf options meta % FLUSH_INTERVAL = 0) :
    extractFrames options meta env =
      ⟨[],
       (List.range (totalFramesOf options meta)).map (mkFrame (resolveOptions options)),
       List.range (totalFramesOf options meta),
       (List.range (totalFramesOf options meta / FLUSH_INTERVAL)).map
         (flushEvtOf (setupCanvas (resolveOptions options) meta.width meta.height)),
       obsOf (totalFramesOf options meta),
       ((List.range (totalFramesOf options meta)).map
         (seekReinits (resolveOptions options) env)).sum,
       none⟩ := by
  unfold extractFrames
  dsimp only
  rw [extractLoop_allOk _ _ _ henv]
  simp only [hT, List.range'_zero, List.map_nil, List.length_nil, Nat.lt_irrefl,
    if_false]

/-- Closed form of a whole `extractFrames` run in which every capture
succeeds and the last batch is partial (ending with the end-of-stream
flush). -/
theorem extractFrames_allOk_with_rem (options : FrameExtractionOptions)
    (meta : VideoMetadata) (env : Nat → FrameEnv)
    (henv : ∀ i, frameFails (resolveOptions options) env i = false)
    (hT : totalFramesOf options meta % FLUSH_INTERVAL ≠ 0) :
    extractFrames options meta env =
      ⟨(List.range' (FLUSH_INTERVAL * (totalFramesOf options meta / FLUSH_INTERVAL))
          (totalFramesOf options meta % FLUSH_INTERVAL)).map (mkFrame (resolveOptions options)),
       (List.range (totalFramesOf options meta)).map (mkFrame (resolveOptions options)),
       List.range (totalFramesOf options meta),
       (List.range (totalFramesOf options meta / FLUSH_INTERVAL)).map
         (flushEvtOf (setupCanvas (resolveOptions options) meta.width meta.height)) ++
         [finalFlushEvtOf (setupCanvas (resolveOptions options) meta.width meta.height)
           (totalFramesOf options meta)],
       obsOf (totalFramesOf options meta) ++ [0],
       ((List.range (totalFramesOf options meta)).map
         (seekReinits (resolveOptions options) env)).sum,
       none⟩ := by
  unfold extractFrames
  dsimp only
  rw [extractLoop_allOk _ _ _ henv]
  simp only [List.length_map, List.length_range']
  rw [if_pos (Nat.pos_of_ne_zero hT)]
  rfl


/-! ### Invariants of the extraction loop -/

/-- Blobs posted by the worker always carry the fixed WebP encoding
parameters. -/
theorem encoderOnMessage_mem (l : List Bitmap) (K : ℤ) :
    ∀ b ∈ (encoderOnMessage l K).blobs, b.format = "image/webp" ∧ b.quality = 0.8 := by
  rcases l with _ | ⟨first, rest⟩
  · intro b h; cases h
  · intro b h
    exact encodeLoop_mem_format K first.width (first.height + labelHeight) 0 (first :: rest) b h

/-- Relations that hold for the loop state at the boundary of every
iteration: the emissions are exactly the captured indices in order, the
batch length tracks `framesExtracted` modulo `FLUSH_INTERVAL`, the `frames`
array holds precisely the frames captured after the last in-loop flush,
every recorded batch-length observation is bounded by `FLUSH_INTERVAL`, and
all flushed blobs use the fixed encoding parameters. -/
structure LoopInv (opts : ResolvedOptions) (s : LoopState) : Prop where
  emitted_eq : s.emitted = s.captured.map (mkFrame opts)
  fe_eq : s.framesExtracted = s.captured.length
  batch_len : s.bitmapBatch.length = s.framesExtracted % FLUSH_INTERVAL
  frames_eq : s.frames = s.emitted.drop (FLUSH_INTERVAL * (s.framesExtracted / FLUSH_INTERVAL))
  obs_le : ∀ x ∈ s.obs, x ≤ FLUSH_INTERVAL
  blobs_spec : ∀ fl ∈ s.flushes, ∀ b ∈ fl.blobs, b.format = "image/webp" ∧ b.quality = 0.8

theorem startState_inv (opts : ResolvedOptions) : LoopInv opts startState := by
  constructor <;> simp [startState]

theorem captureStep_inv (opts : ResolvedOptions) (canvas : Nat × Nat) (i : Nat)
    (s : LoopState) (hInv : LoopInv opts s) :
    LoopInv opts (captureStep opts canvas i s) ∧
    (captureStep opts canvas i s).captured = s.captured ++ [i] ∧
    (captureStep opts canvas i s).consecutiveFailures = 0 := by
  obtain ⟨he, hf, hb, hfr, ho, hbl⟩ := hInv
  have hlen : s.emitted.length = s.framesExtracted := by
    rw [he, List.length_map, hf]
  have hblt : s.bitmapBatch.length < FLUSH_INTERVAL := by
    rw [hb]; unfold FLUSH_INTERVAL; omega
  unfold captureStep
  by_cases hc : 0 < s.framesExtracted + 1 ∧ (s.framesExtracted + 1) % FLUSH_INTERVAL = 0
  · rw [if_pos hc]
    refine ⟨⟨?_, ?_, ?_, ?_, ?_, ?_⟩, rfl, rfl⟩
    · simp [he, List.map_append, mkFrame]
    · simp [hf]
    · simp [hc.2]
    · have : FLUSH_INTERVAL * ((s.framesExtracted + 1) / FLUSH_INTERVAL) =
          s.framesExtracted + 1 := by
        unfold FLUSH_INTERVAL at *
        omega
      rw [this]
      rw [List.drop_eq_nil_of_le]
      simp [hlen]
    · intro x hx
      simp only [List.append_assoc, List.mem_append, List.mem_singleton] at hx
      rcases hx with hx | hx | hx
      · exact ho x hx
      · rw [hx, hb]; unfold FLUSH_INTERVAL at *; omega
      · rw [hx]; unfold FLUSH_INTERVAL; omega
    · intro fl hfl
      rw [List.mem_append, List.mem_singleton] at hfl
      rcases hfl with hfl | hfl
      · exact hbl fl hfl
      · subst hfl
        exact encoderOnMessage_mem _ _
  · rw [if_neg hc]
    have hmod : (s.framesExtracted + 1) % FLUSH_INTERVAL =
        s.framesExtracted % FLUSH_INTERVAL + 1 := by
      unfold FLUSH_INTERVAL at *
      omega
    have hdiv : (s.framesExtracted + 1) / FLUSH_INTERVAL =
        s.framesExtracted / FLUSH_INTERVAL := by
      unfold FLUSH_INTERVAL at *
      omega
    refine ⟨⟨?_, ?_, ?_, ?_, ?_, ?_⟩, rfl, rfl⟩
    · simp [he, List.map_append, mkFrame]
    · simp [hf]
    · simp [hmod, hb]
    · rw [hdiv, List.drop_append_of_le_length, hfr]
      rw [hlen]
      unfold FLUSH_INTERVAL
      omega
    · intro x hx
      rw [List.mem_append, List.mem_singleton] at hx
      rcases hx with hx | hx
      · exact ho x hx
      · rw [hx, hb]; unfold FLUSH_INTERVAL at *; omega
    · exact hbl

theorem stepFrame_inv (opts : ResolvedOptions) (canvas : Nat × Nat)
    (env : Nat → FrameEnv) (i : Nat) (s : LoopState) (hInv : LoopInv opts s) :
    LoopInv opts (stepFrame opts canvas env i s).1 ∧
    ((stepFrame opts canvas env i s).1.captured = s.captured ∨
      (stepFrame opts canvas env i s).1.captured = s.captured ++ [i]) ∧
    ((stepFrame opts canvas env i s).2.isSome →
      (stepFrame opts canvas env i s).1.captured = s.captured) := by
  have hInv0 : LoopInv opts { s with reinits := s.reinits + seekReinits opts env i } := by
    obtain ⟨he, hf, hb, hfr, ho, hbl⟩ := hInv
    exact ⟨he, hf, hb, hfr, ho, hbl⟩
  by_cases hfail : frameFails opts env i = true
  · rw [stepFrame_of_fail _ _ _ _ _ hfail, failStep_eq]
    obtain ⟨he, hf, hb, hfr, ho, hbl⟩ := hInv0
    constructor
    · exact ⟨he, hf, hb, hfr, ho, hbl⟩
    · exact ⟨Or.inl rfl, fun _ => rfl⟩
  · rw [stepFrame_of_ok _ _ _ _ _ (Bool.not_eq_true _ ▸ hfail)]
    obtain ⟨h1, h2, _⟩ := captureStep_inv opts canvas i _ hInv0
    exact ⟨h1, Or.inr h2, fun h => absurd h (by simp)⟩

theorem extractLoop_inv (opts : ResolvedOptions) (canvas : Nat × Nat)
    (env : Nat → FrameEnv) :
    ∀ (n a : Nat) (s : LoopState), LoopInv opts s →
      (∀ x ∈ s.captured, x < a) → s.captured.Pairwise (· < ·) →
      LoopInv opts (extractLoop opts canvas env (List.range' a n) s).1 ∧
      (∀ x ∈ (extractLoop opts canvas env (List.range' a n) s).1.captured, x < a + n) ∧
      (extractLoop opts canvas env (List.range' a n) s).1.captured.Pairwise (· < ·) := by
  intro n
  induction n with
  | zero =>
    intro a s hInv hlt hsort
    simpa [List.range'_zero, extractLoop_nil] using ⟨hInv, hlt, hsort⟩
  | succ n ih =>
    intro a s hInv hlt hsort
    rw [List.range'_succ, extractLoop_cons]
    obtain ⟨hInv1, hcap, _⟩ := stepFrame_inv opts canvas env a s hInv
    have hlt1 : ∀ x ∈ (stepFrame opts canvas env a s).1.captured, x < a + 1 := by
      intro x hx
      rcases hcap with hc | hc <;> rw [hc] at hx
      · exact Nat.lt_succ_of_lt (hlt x hx)
      · rw [List.mem_append, List.mem_singleton] at hx
        rcases hx with hx | hx
        · exact Nat.lt_succ_of_lt (hlt x hx)
        · omega
    have hsort1 : (stepFrame opts canvas env a s).1.captured.Pairwise (· < ·) := by
      rcases hcap with hc | hc <;> rw [hc]
      · exact hsort
      · rw [List.pairwise_append]
        exact ⟨hsort, List.pairwise_singleton _ _, fun x hx y hy => by
          rw [List.mem_singleton] at hy
          subst hy
          exact hlt x hx⟩
    rcases hstep : stepFrame opts canvas env a s with ⟨s1, f⟩
    rw [hstep] at hInv1 hlt1 hsort1
    simp only at hInv1 hlt1 hsort1
    rcases f with _ | f
    · dsimp only
      have := ih (a + 1) s1 hInv1 hlt1 hsort1
      simpa [Nat.add_right_comm a 1 n] using this
    · dsimp only
      refine ⟨hInv1, ?_, hsort1⟩
      intro x hx
      have := hlt1 x hx
      omega


/-- Invariants of a whole `extractFrames` run, fatal or not: emissions are
the captured indices in order (strictly increasing), the returned array is
the suffix of the emissions after the last in-loop flush, every batch-length
observation is bounded by `FLUSH_INTERVAL`, and all flushed blobs use the
fixed encoding parameters. -/
theorem extractFrames_spec (options : FrameExtractionOptions)
    (meta : VideoMetadata) (env : Nat → FrameEnv) :
    (extractFrames options meta env).emitted =
      (extractFrames options meta env).captured.map (mkFrame (resolveOptions options)) ∧
    (extractFrames options meta env).captured.Pairwise (· < ·) ∧
    (extractFrames options meta env).frames =
      (extractFrames options meta env).emitted.drop
        (FLUSH_INTERVAL * ((extractFrames options meta env).captured.length / FLUSH_INTERVAL)) ∧
    (∀ x ∈ (extractFrames options meta env).obs, x ≤ FLUSH_INTERVAL) ∧
    (∀ fl ∈ (extractFrames options meta env).flushes, ∀ b ∈ fl.blobs,
      b.format = "image/webp" ∧ b.quality = 0.8) := by
  obtain ⟨hInv, hlt, hsort⟩ :=
    extractLoop_inv (resolveOptions options)
      (setupCanvas (resolveOptions options) meta.width meta.height) env
      (totalFramesOf options meta) 0 startState (startState_inv _)
      (by intro x hx; cases hx) (by constructor)
  rw [← List.range_eq_range'] at hInv hsort
  unfold extractFrames
  dsimp only
  rcases hloop : extractLoop (resolveOptions options)
      (setupCanvas (resolveOptions options) meta.width meta.height) env
      (List.range (totalFramesOf options meta)) startState with ⟨s, f⟩
  rw [hloop] at hInv hsort
  simp only at hInv hsort
  obtain ⟨he, hf, hb, hfr, ho, hbl⟩ := hInv
  rcases f with _ | f
  · dsimp only
    by_cases hlen : 0 < s.bitmapBatch.length
    · rw [if_pos hlen]
      refine ⟨he, hsort, ?_, ?_, ?_⟩
      · rw [hfr, hf]
      · intro x hx
        rw [List.mem_append, List.mem_singleton] at hx
        rcases hx with hx | hx
        · exact ho x hx
        · rw [hx]; unfold FLUSH_INTERVAL; omega
      · intro fl hfl
        rw [List.mem_append, List.mem_singleton] at hfl
        rcases hfl with hfl | hfl
        · exact hbl fl hfl
        · subst hfl
          exact encoderOnMessage_mem _ _
    · rw [if_neg hlen]
      exact ⟨he, hsort, by rw [hfr, hf], ho, hbl⟩
  · dsimp only
    exact ⟨he, hsort, by rw [hfr, hf], ho, hbl⟩

/-- Three consecutive failing frames abort the loop without any further
capture, wherever they occur. -/
theorem extractLoop_fail3 (opts : ResolvedOptions) (canvas : Nat × Nat)
    (env : Nat → FrameEnv) (j : Nat)
    (h0 : frameFails opts env j = true) (h1 : frameFails opts env (j + 1) = true)
    (h2 : frameFails opts env (j + 2) = true) (s : LoopState) :
    (extractLoop opts canvas env [j, j + 1, j + 2] s).2.isSome = true ∧
    (extractLoop opts canvas env [j, j + 1, j + 2] s).1.captured = s.captured := by
  rw [extractLoop_cons, stepFrame_of_fail _ _ _ _ _ h0, failStep_eq]
  by_cases hc1 : MAX_CONSECUTIVE_FAILURES ≤ s.consecutiveFailures + 1
  · rw [if_pos hc1]
    exact ⟨rfl, rfl⟩
  · rw [if_neg hc1]
    dsimp only
    rw [extractLoop_cons, stepFrame_of_fail _ _ _ _ _ h1, failStep_eq]
    by_cases hc2 : MAX_CONSECUTIVE_FAILURES ≤ s.consecutiveFailures + 1 + 1
    · rw [if_pos hc2]
      exact ⟨rfl, rfl⟩
    · rw [if_neg hc2]
      dsimp only
      rw [extractLoop_cons, stepFrame_of_fail _ _ _ _ _ h2, failStep_eq]
      have hc3 : MAX_CONSECUTIVE_FAILURES ≤ s.consecutiveFailures + 1 + 1 + 1 := by
        unfold MAX_CONSECUTIVE_FAILURES at *
        omega
      rw [if_pos hc3]
      exact ⟨rfl, rfl⟩

theorem captureStep_captured (opts : ResolvedOptions) (canvas : Nat × Nat)
    (i : Nat) (s : LoopState) :
    (captureStep opts canvas i s).captured = s.captured ++ [i] := by
  unfold captureStep
  dsimp only
  split <;> rfl

theorem captureStep_cf (opts : ResolvedOptions) (canvas : Nat × Nat)
    (i : Nat) (s : LoopState) :
    (captureStep opts canvas i s).consecutiveFailures = 0 := by
  unfold captureStep
  dsimp only
  split <;> rfl

/-- When failing frames are always separated by at least one success, the
loop never aborts and captures exactly the non-failing indices, in order. -/
theorem extractLoop_sep (opts : ResolvedOptions) (canvas : Nat × Nat)
    (env : Nat → FrameEnv)
    (hsep : ∀ j : Nat, frameFails opts env j = true → frameFails opts env (j + 1) = false) :
    ∀ (n a : Nat) (s : LoopState),
      (s.consecutiveFailures = 0 ∨
        (s.consecutiveFailures = 1 ∧ 0 < a ∧ frameFails opts env (a - 1) = true)) →
      (extractLoop opts canvas env (List.range' a n) s).2 = none ∧
      (extractLoop opts canvas env (List.range' a n) s).1.captured =
        s.captured ++ (List.range' a n).filter (fun i => !frameFails opts env i) := by
  intro n
  induction n with
  | zero =>
    intro a s hcf
    simp [List.range'_zero, extractLoop_nil]
  | succ n ih =>
    intro a s hcf
    rw [List.range'_succ, extractLoop_cons]
    by_cases hfa : frameFails opts env a = true
    · have hcf0 : s.consecutiveFailures = 0 := by
        rcases hcf with h | ⟨h1, h2, h3⟩
        · exact h
        · exfalso
          have := hsep (a - 1) h3
          rw [Nat.sub_add_cancel h2] at this
          rw [this] at hfa
          cases hfa
      rw [stepFrame_of_fail _ _ _ _ _ hfa, failStep_eq, hcf0]
      have : ¬MAX_CONSECUTIVE_FAILURES ≤ 0 + 1 := by
        unfold MAX_CONSECUTIVE_FAILURES
        omega
      rw [if_neg this]
      have hrec := ih (a + 1)
        { s with
          reinits := s.reinits + seekReinits opts env a
          consecutiveFailures := 0 + 1 }
        (Or.inr ⟨rfl, Nat.succ_pos a, by simpa using hfa⟩)
      refine ⟨hrec.1, ?_⟩
      rw [hrec.2]
      simp only [List.filter_cons, hfa]
      rfl
    · have hfa2 : frameFails opts env a = false := by simpa using hfa
      rw [stepFrame_of_ok _ _ _ _ _ hfa2]
      dsimp only
      have hrec := ih (a + 1)
        (captureStep opts canvas a { s with reinits := s.reinits + seekReinits opts env a })
        (Or.inl (captureStep_cf _ _ _ _))
      refine ⟨hrec.1, ?_⟩
      rw [hrec.2, captureStep_captured]
      simp only [List.filter_cons, hfa2, Bool.not_false, if_true]
      simp [List.append_assoc]


/-! ### Concrete environments used by the scenario claims -/

/-- Seek outcomes that fail on the first two attempts and succeed on the
third. -/
def outTwoFail : Nat → SeekResult :=
  fun n => if n ≤ 2 then SeekResult.err "e" else SeekResult.ok

/-- Environment in which the seek for frame 5 fails twice and then succeeds,
and every other seek succeeds immediately. -/
def envRetry5 : Nat → FrameEnv :=
  fun i => if i = 5 then ⟨outTwoFail, true⟩ else ⟨fun _ => SeekResult.ok, true⟩

/-- Environment in which frames 3, 4 and 5 always fail to seek and every
other frame succeeds immediately. -/
def envTriple : Nat → FrameEnv :=
  fun i => if 3 ≤ i ∧ i ≤ 5 then ⟨fun _ => SeekResult.err "e", true⟩
    else ⟨fun _ => SeekResult.ok, true⟩

theorem envAllOk_ok (opts : ResolvedOptions) :
    ∀ i, frameFails opts envAllOk i = false := by
  intro i
  simp [frameFails, envAllOk, seekWithRetry_eq]

theorem envRetry5_ok (opts : ResolvedOptions) :
    ∀ i, frameFails opts envRetry5 i = false := by
  intro i
  by_cases h : i = 5 <;>
    simp [frameFails, envRetry5, h, outTwoFail, seekWithRetry_eq]

theorem encoderOnMessage_length (l : List Bitmap) (K : ℤ) :
    (encoderOnMessage l K).blobs.length = l.length := by
  rcases l with _ | ⟨first, rest⟩
  · rfl
  · exact encodeLoop_length _ _ _ _ _


/-! ### Claims -/

/-- C4: for every timestamp, `seekWithRetry` issues at most
`MAX_SEEK_RETRIES = 3` underlying seek attempts; if the underlying seek
fails on every attempt, it is invoked exactly 3 times (never more) and
`seekWithRetry` throws a seek-failure error carrying the timestamp and the
last underlying error. -/
theorem claim_C4 (t : Nat) (out : Nat → SeekResult) :
    (seekWithRetry t out).attempts ≤ MAX_SEEK_RETRIES ∧
    (∀ es : Nat → String, (∀ n, out n = SeekResult.err (es n)) →
      (seekWithRetry t out).attempts = MAX_SEEK_RETRIES ∧
      (seekWithRetry t out).outcome = some ⟨t, es 3⟩) := by
  constructor
  · rw [seekWithRetry_eq]
    rcases h1 : out 1 with _ | e1 <;> [skip; rcases h2 : out 2 with _ | e2] <;>
      [skip; skip; rcases h3 : out 3 with _ | e3] <;>
        simp [SeekTrace.attempts, MAX_SEEK_RETRIES, List.countP, List.countP.go]
  · intro es hes
    rw [seekWithRetry_eq, hes 1, hes 2, hes 3]
    exact ⟨rfl, rfl⟩

/-- C4 witness: a mock whose seeks always fail is attempted exactly 3 times
and the resulting error carries the timestamp and the last error. -/
theorem claim_C4_witness :
    (seekWithRetry 7 (fun _ => SeekResult.err "boom")).attempts = MAX_SEEK_RETRIES ∧
    (seekWithRetry 7 (fun _ => SeekResult.err "boom")).outcome = some ⟨7, "boom"⟩ :=
  (claim_C4 7 (fun _ => SeekResult.err "boom")).2 (fun _ => "boom") (fun _ => rfl)

/-- C9: on the empty batch the encoder worker immediately posts an empty
blob list, creates no canvas, and raises no error. -/
theorem claim_C9 (K : ℤ) :
    encoderOnMessage [] K = ⟨[], false⟩ := rfl

/-- C8: for a batch with `startingIndex = K` and `N` pictures the worker
returns exactly `N` blobs, in input order (the i-th blob is rendered from the
i-th input picture), and the i-th blob's visible label is `K + i`. -/
theorem claim_C8 (bitmaps : List Bitmap) (K : ℤ) :
    (encoderOnMessage bitmaps K).blobs.length = bitmaps.length ∧
    (encoderOnMessage bitmaps K).blobs.map EncodedBlob.source = bitmaps ∧
    (encoderOnMessage bitmaps K).blobs.map EncodedBlob.label =
      (List.range bitmaps.length).map (fun i : Nat => K + (i : ℤ)) := by
  rcases bitmaps with _ | ⟨first, rest⟩
  · exact ⟨rfl, rfl, rfl⟩
  · refine ⟨encodeLoop_length _ _ _ _ _, encodeLoop_map_source _ _ _ _ _, ?_⟩
    show (encodeLoop K first.width (first.height + labelHeight) 0 (first :: rest)).map
        EncodedBlob.label = _
    rw [encodeLoop_map_label]
    apply List.map_congr_left
    intro j _
    push_cast
    ring


/-- C5: on each non-final seek failure the decode session is fully
reinitialized before the next attempt (trace
`attempt 1, reinit, attempt 2, reinit, attempt 3` for fail-fail-succeed);
and in a 10-second run whose seek at `t = 5` fails twice and succeeds on the
3rd attempt, the frame at `t = 5` is present in the returned output and
exactly 2 reinitializations are observed over the whole run. -/
theorem claim_C5 :
    (∀ (t : Nat) (out : Nat → SeekResult) (e1 e2 : String),
      out 1 = SeekResult.err e1 → out 2 = SeekResult.err e2 →
      out 3 = SeekResult.ok →
      (seekWithRetry t out).events =
        [SeekEvent.attempt 1, SeekEvent.reinit, SeekEvent.attempt 2,
          SeekEvent.reinit, SeekEvent.attempt 3] ∧
      (seekWithRetry t out).reinits = 2 ∧
      (seekWithRetry t out).outcome = none) ∧
    ((extractFrames defaultOptions (metaOf 10) envRetry5).fatal = none ∧
      (extractFrames defaultOptions (metaOf 10) envRetry5).frames.map
        ExtractedFrame.timestamp = [0, 1, 2, 3, 4, 5, 6, 7, 8, 9] ∧
      (extractFrames defaultOptions (metaOf 10) envRetry5).reinits = 2) := by
  constructor
  · intro t out e1 e2 h1 h2 h3
    rw [seekWithRetry_eq, h1, h2, h3]
    exact ⟨rfl, rfl, rfl⟩
  · rw [extractFrames_allOk_with_rem _ _ _ (envRetry5_ok _) (by decide)]
    refine ⟨rfl, ?_, ?_⟩
    · decide
    · decide

/-- C5 witness: instantiation of the general retry-trace property at a
concrete outcome function that fails twice and then succeeds. -/
theorem claim_C5_witness :
    (seekWithRetry 5 outTwoFail).events =
      [SeekEvent.attempt 1, SeekEvent.reinit, SeekEvent.attempt 2,
        SeekEvent.reinit, SeekEvent.attempt 3] ∧
    (seekWithRetry 5 outTwoFail).reinits = 2 ∧
    (seekWithRetry 5 outTwoFail).outcome = none :=
  claim_C5.1 5 outTwoFail "e" "e" rfl rfl rfl

/-- C2 (code bug): after the only flush of a 120-second all-success run the
worker returned 120 blobs, yet every emitted frame still has
`blob = undefined` — the awaited blobs are never associated back to the
frames, contradicting the comment `Will be filled when batch is encoded`. -/
theorem claim_C2 :
    (extractFrames defaultOptions (metaOf 120) envAllOk).fatal = none ∧
    (extractFrames defaultOptions (metaOf 120) envAllOk).emitted.length = 120 ∧
    (extractFrames defaultOptions (metaOf 120) envAllOk).flushes.map
      (fun fl => fl.blobs.length) = [120] ∧
    (extractFrames defaultOptions (metaOf 120) envAllOk).emitted.map
      ExtractedFrame.blob = List.replicate 120 none := by
  rw [extractFrames_allOk_exact _ _ _ (envAllOk_ok _) (by decide)]
  have hT : totalFramesOf defaultOptions (metaOf 120) = 120 := rfl
  refine ⟨rfl, by simp [hT], ?_, ?_⟩
  · rw [hT]
    show List.map (fun fl => fl.blobs.length)
      ((List.range (120 / FLUSH_INTERVAL)).map
        (flushEvtOf (setupCanvas (resolveOptions defaultOptions) (metaOf 120).width
          (metaOf 120).height))) = [120]
    have h1 : (120 : Nat) / FLUSH_INTERVAL = 1 := rfl
    rw [h1]
    simp [flushEvtOf, encoderOnMessage_length]
    rfl
  · rw [hT, List.map_map]
    have : (ExtractedFrame.blob ∘ mkFrame (resolveOptions defaultOptions)) =
        fun _ => (none : Option EncodedBlob) := rfl
    rw [this]
    simp [List.map_const']

/-- C3 (code bug): on the 300-second all-success run there are exactly 3
flushes with batches of 120, 120 and 60 pictures, but the `startingIndex`
arguments passed to the encode worker are `-1`, `119` and `240` — the
in-loop flushes use `i - bitmapBatch.length` (one less than the global index
of the batch's first frame), not `0` and `120` as specified. -/
theorem claim_C3 :
    (extractFrames defaultOptions (metaOf 300) envAllOk).fatal = none ∧
    (extractFrames defaultOptions (metaOf 300) envAllOk).flushes.map
      (fun fl => (fl.startingIndex, fl.batch.length)) =
      [(-1, 120), (119, 120), (240, 60)] := by
  rw [extractFrames_allOk_with_rem _ _ _ (envAllOk_ok _) (by decide)]
  have hT : totalFramesOf defaultOptions (metaOf 300) = 300 := rfl
  refine ⟨rfl, ?_⟩
  rw [hT]
  have h1 : (300 : Nat) / FLUSH_INTERVAL = 2 := rfl
  have h2 : (300 : Nat) % FLUSH_INTERVAL = 60 := rfl
  rw [h1, h2]
  simp [flushEvtOf, finalFlushEvtOf, List.range_succ]
  norm_num [FLUSH_INTERVAL]


/-- C1 counterexample: in a 121-second all-success run, 121 frames are
successfully captured and emitted (frame 0 among them), but the array the
method returns holds only the single frame captured after the last flush —
the frame at `t = 120` — so it does not contain every successfully captured
frame and its timestamps do not start at 0. -/
theorem claim_C1_counterexample :
    (extractFrames defaultOptions (metaOf 121) envAllOk).fatal = none ∧
    (extractFrames defaultOptions (metaOf 121) envAllOk).emitted.length = 121 ∧
    mkFrame (resolveOptions defaultOptions) 0 ∈
      (extractFrames defaultOptions (metaOf 121) envAllOk).emitted ∧
    (extractFrames defaultOptions (metaOf 121) envAllOk).frames =
      [mkFrame (resolveOptions defaultOptions) 120] ∧
    mkFrame (resolveOptions defaultOptions) 0 ∉
      (extractFrames defaultOptions (metaOf 121) envAllOk).frames := by
  rw [extractFrames_allOk_with_rem _ _ _ (envAllOk_ok _) (by decide)]
  have hT : totalFramesOf defaultOptions (metaOf 121) = 121 := rfl
  have h1 : (121 : Nat) / FLUSH_INTERVAL = 1 := rfl
  have h2 : (121 : Nat) % FLUSH_INTERVAL = 1 := rfl
  have h3 : FLUSH_INTERVAL * 1 = 120 := rfl
  refine ⟨rfl, by simp [hT], ?_, ?_, ?_⟩
  · rw [hT]
    exact List.mem_map_of_mem _ (by decide)
  · rw [hT, h1, h2, h3]
    rfl
  · rw [hT, h1, h2, h3]
    show mkFrame (resolveOptions defaultOptions) 0 ∉
      List.map (mkFrame (resolveOptions defaultOptions)) (List.range' 120 1)
    intro hmem
    have hr : List.range' 120 1 = [120] := rfl
    rw [hr] at hmem
    simp only [List.map_cons, List.map_nil, List.mem_singleton] at hmem
    have hpic := congrArg (fun f => f.data.picture) hmem
    simp [mkFrame, mkDataURL] at hpic

/-- C1 (amended): in every run, the emitted frames are exactly the captured
indices in capture order with timestamps `i * frameInterval` (strictly
increasing when `frameInterval > 0`), while the array the method returns is
only the suffix of the emissions after the last in-loop flush (everything
when fewer than `FLUSH_INTERVAL` frames were captured since the start), with
strictly increasing timestamps. -/
theorem claim_C1 (options : FrameExtractionOptions) (meta : VideoMetadata)
    (env : Nat → FrameEnv)
    (hq : 0 < (resolveOptions options).frameInterval) :
    (extractFrames options meta env).emitted =
      (extractFrames options meta env).captured.map
        (mkFrame (resolveOptions options)) ∧
    (extractFrames options meta env).captured.Pairwise (· < ·) ∧
    (extractFrames options meta env).frames =
      (extractFrames options meta env).emitted.drop
        (FLUSH_INTERVAL *
          ((extractFrames options meta env).captured.length / FLUSH_INTERVAL)) ∧
    ((extractFrames options meta env).emitted.map
      ExtractedFrame.timestamp).Pairwise (· < ·) ∧
    ((extractFrames options meta env).frames.map
      ExtractedFrame.timestamp).Pairwise (· < ·) := by
  obtain ⟨he, hsort, hfr, -, -⟩ := extractFrames_spec options meta env
  have hemit : ((extractFrames options meta env).emitted.map
      ExtractedFrame.timestamp).Pairwise (· < ·) := by
    rw [he, List.map_map]
    rw [List.pairwise_map]
    refine hsort.imp ?_
    intro a b hab
    show (ExtractedFrame.timestamp ∘ mkFrame (resolveOptions options)) a <
      (ExtractedFrame.timestamp ∘ mkFrame (resolveOptions options)) b
    simpa [mkFrame] using Nat.mul_lt_mul_of_lt_of_le hab (Nat.le_refl _) hq
  refine ⟨he, hsort, hfr, hemit, ?_⟩
  rw [hfr, List.map_drop]
  exact hemit.sublist (List.drop_sublist _ _)

/-- C1 witness: the amended description evaluated on a concrete successful
3-frame run. -/
theorem claim_C1_witness :
    (extractFrames defaultOptions (metaOf 3) envAllOk).frames =
      (extractFrames defaultOptions (metaOf 3) envAllOk).emitted.drop
        (FLUSH_INTERVAL *
          ((extractFrames defaultOptions (metaOf 3) envAllOk).captured.length /
            FLUSH_INTERVAL)) :=
  (claim_C1 defaultOptions (metaOf 3) envAllOk (by decide)).2.2.1

/-- C7: at every observation point of every run, the batch buffer of
captured pictures holds at most `FLUSH_INTERVAL = 120` elements. -/
theorem claim_C7 (options : FrameExtractionOptions) (meta : VideoMetadata)
    (env : Nat → FrameEnv) (x : Nat)
    (hx : x ∈ (extractFrames options meta env).obs) : x ≤ FLUSH_INTERVAL :=
  (extractFrames_spec options meta env).2.2.2.1 x hx

/-- C7 witness: a concrete observation of a 3-frame run is within the
bound. -/
theorem claim_C7_witness : (1 : Nat) ≤ FLUSH_INTERVAL :=
  claim_C7 defaultOptions (metaOf 3) envAllOk 1 (by decide)


/-- C6: in the extraction loop a frame failure increments
`consecutiveFailures` and skips only that frame, a success resets the
counter, a third consecutive failure aborts the run fatally with no frame
ever captured at or after the triggering window, and when failures are
always separated by a success the run completes normally with exactly the
non-failing indices captured — the failing timestamps are absent from the
output. -/
theorem claim_C6 (options : FrameExtractionOptions) (meta : VideoMetadata)
    (env : Nat → FrameEnv) :
    (∀ (i : Nat) (s : LoopState),
      frameFails (resolveOptions options) env i = true →
      s.consecutiveFailures + 1 < MAX_CONSECUTIVE_FAILURES →
      (stepFrame (resolveOptions options)
        (setupCanvas (resolveOptions options) meta.width meta.height) env i s).2 = none ∧
      (stepFrame (resolveOptions options)
        (setupCanvas (resolveOptions options) meta.width meta.height) env i
          s).1.consecutiveFailures = s.consecutiveFailures + 1 ∧
      (stepFrame (resolveOptions options)
        (setupCanvas (resolveOptions options) meta.width meta.height) env i
          s).1.emitted = s.emitted ∧
      (stepFrame (resolveOptions options)
        (setupCanvas (resolveOptions options) meta.width meta.height) env i
          s).1.captured = s.captured ∧
      (stepFrame (resolveOptions options)
        (setupCanvas (resolveOptions options) meta.width meta.height) env i
          s).1.frames = s.frames) ∧
    (∀ (i : Nat) (s : LoopState),
      frameFails (resolveOptions options) env i = false →
      (stepFrame (resolveOptions options)
        (setupCanvas (resolveOptions options) meta.width meta.height) env i s).2 = none ∧
      (stepFrame (resolveOptions options)
        (setupCanvas (resolveOptions options) meta.width meta.height) env i
          s).1.consecutiveFailures = 0) ∧
    (∀ j : Nat, j + 3 ≤ totalFramesOf options meta →
      frameFails (resolveOptions options) env j = true →
      frameFails (resolveOptions options) env (j + 1) = true →
      frameFails (resolveOptions options) env (j + 2) = true →
      (extractFrames options meta env).fatal.isSome = true ∧
      ∀ x ∈ (extractFrames options meta env).captured, x < j) ∧
    ((∀ j : Nat, frameFails (resolveOptions options) env j = true →
        frameFails (resolveOptions options) env (j + 1) = false) →
      (extractFrames options meta env).fatal = none ∧
      (extractFrames options meta env).captured =
        (List.range (totalFramesOf options meta)).filter
          (fun i => !frameFails (resolveOptions options) env i) ∧
      ∀ i : Nat, frameFails (resolveOptions options) env i = true →
        mkFrame (resolveOptions options) i ∉
          (extractFrames options meta env).emitted) := by
  refine ⟨?_, ?_, ?_, ?_⟩
  · intro i s hf hlt
    have hcc : ¬MAX_CONSECUTIVE_FAILURES ≤ s.consecutiveFailures + 1 := by omega
    rw [stepFrame_of_fail _ _ _ _ _ hf, failStep_eq]
    dsimp only
    rw [if_neg hcc]
    exact ⟨rfl, rfl, rfl, rfl, rfl⟩
  · intro i s hf
    rw [stepFrame_of_ok _ _ _ _ _ hf]
    exact ⟨rfl, captureStep_cf _ _ _ _⟩
  · intro j hj h0 h1 h2
    have hsplit : (List.range' 0 j ++ [j, j + 1, j + 2]) ++
        List.range' (j + 3) (totalFramesOf options meta - (j + 3)) =
        List.range (totalFramesOf options meta) := by
      rw [List.range_eq_range']
      have e1 : List.range' 0 j ++ List.range' j 3 = List.range' 0 (j + 3) := by
        have h := List.range'_append_1 0 j 3
        rw [Nat.zero_add, Nat.add_comm 3 j] at h
        exact h
      have e3 : List.range' j 3 = [j, j + 1, j + 2] := rfl
      rw [← e3, e1]
      have e2 := List.range'_append_1 0 (j + 3)
        (totalFramesOf options meta - (j + 3))
      simp only [Nat.zero_add] at e2
      rw [e2]
      congr 1
      omega
    obtain ⟨hInvP, hltP, hsortP⟩ := extractLoop_inv (resolveOptions options)
      (setupCanvas (resolveOptions options) meta.width meta.height) env j 0
      startState (startState_inv _) (by intro x hx; cases hx) (by constructor)
    unfold extractFrames
    dsimp only
    rw [← hsplit, extractLoop_append, extractLoop_append]
    rcases hpre : extractLoop (resolveOptions options)
        (setupCanvas (resolveOptions options) meta.width meta.height) env
        (List.range' 0 j) startState with ⟨s1, f1⟩
    rw [hpre] at hltP
    simp only [Nat.zero_add] at hltP
    rcases f1 with _ | f1
    · dsimp only
      obtain ⟨hsome, hcap⟩ := extractLoop_fail3 (resolveOptions options)
        (setupCanvas (resolveOptions options) meta.width meta.height) env j
        h0 h1 h2 s1
      rcases hmid : extractLoop (resolveOptions options)
          (setupCanvas (resolveOptions options) meta.width meta.height) env
          [j, j + 1, j + 2] s1 with ⟨s2, f2⟩
      rw [hmid] at hsome hcap
      rcases f2 with _ | f2
      · simp at hsome
      · dsimp only
        refine ⟨rfl, ?_⟩
        intro x hx
        rw [hcap] at hx
        exact hltP x hx
    · dsimp only
      refine ⟨rfl, ?_⟩
      intro x hx
      exact hltP x hx
  · intro hsep
    obtain ⟨hnof, hcap⟩ := extractLoop_sep (resolveOptions options)
      (setupCanvas (resolveOptions options) meta.width meta.height) env hsep
      (totalFramesOf options meta) 0 startState (Or.inl rfl)
    obtain ⟨hInvL, -, -⟩ := extractLoop_inv (resolveOptions options)
      (setupCanvas (resolveOptions options) meta.width meta.height) env
      (totalFramesOf options meta) 0 startState (startState_inv _)
      (by intro x hx; cases hx) (by constructor)
    rw [← List.range_eq_range'] at hnof hcap hInvL
    unfold extractFrames
    dsimp only
    rcases hloop : extractLoop (resolveOptions options)
        (setupCanvas (resolveOptions options) meta.width meta.height) env
        (List.range (totalFramesOf options meta)) startState with ⟨s, f⟩
    rw [hloop] at hnof hcap hInvL
    subst hnof
    have hcap2 : s.captured = (List.range (totalFramesOf options meta)).filter
        (fun i => !frameFails (resolveOptions options) env i) := by
      rw [hcap]
      simp [startState]
    have he := hInvL.emitted_eq
    have hnotin : ∀ i : Nat, frameFails (resolveOptions options) env i = true →
        mkFrame (resolveOptions options) i ∉ s.emitted := by
      intro i hfi hmem
      rw [he, List.mem_map] at hmem
      obtain ⟨x, hx, hxi⟩ := hmem
      have hxeq : x = i := by
        have := congrArg (fun f => f.data.picture) hxi
        simpa [mkFrame, mkDataURL] using this
      subst hxeq
      rw [hcap2, List.mem_filter, hfi] at hx
      simp at hx
    dsimp only
    by_cases hlen : 0 < s.bitmapBatch.length
    · rw [if_pos hlen]
      exact ⟨rfl, hcap2, hnotin⟩
    · rw [if_neg hlen]
      exact ⟨rfl, hcap2, hnotin⟩

/-- C6 witness: with frames 3, 4 and 5 always failing in a 10-second run,
the run aborts fatally. -/
theorem claim_C6_witness :
    (extractFrames defaultOptions (metaOf 10) envTriple).fatal.isSome = true :=
  ((claim_C6 defaultOptions (metaOf 10) envTriple).2.2.1 3 (by decide)
    (by decide) (by decide) (by decide)).1


/-- Only the `frameInterval` field of the resolved options influences one
loop iteration (the stored `quality` option is never read). -/
theorem stepFrame_interval_congr (opts1 opts2 : ResolvedOptions)
    (h : opts1.frameInterval = opts2.frameInterval) (canvas : Nat × Nat)
    (env : Nat → FrameEnv) (i : Nat) (s : LoopState) :
    stepFrame opts1 canvas env i s = stepFrame opts2 canvas env i s := by
  unfold stepFrame captureStep mkFrame
  rw [h]

theorem extractLoop_interval_congr (opts1 opts2 : ResolvedOptions)
    (h : opts1.frameInterval = opts2.frameInterval) (canvas : Nat × Nat)
    (env : Nat → FrameEnv) :
    ∀ (l : List Nat) (s : LoopState),
      extractLoop opts1 canvas env l s = extractLoop opts2 canvas env l s := by
  intro l
  induction l with
  | nil => intro s; rfl
  | cons i rest ih =>
    intro s
    rw [extractLoop_cons, extractLoop_cons, stepFrame_interval_congr _ _ h]
    rcases stepFrame opts2 canvas env i s with ⟨s1, f⟩
    rcases f with _ | f
    · exact ih s1
    · rfl

/-- C10: the `quality` option has no effect on any output of the native
pipeline — two runs differing only in `options.quality` produce identical
results, every preview data URL is encoded as JPEG at the constant quality
0.3, and every batch blob as WebP at the constant quality 0.8. -/
theorem claim_C10 (q1 q2 : Option ℚ) (mw mh : Option Nat) (fi : Option Nat)
    (meta : VideoMetadata) (env : Nat → FrameEnv) :
    extractFrames ⟨q1, mw, mh, fi⟩ meta env =
      extractFrames ⟨q2, mw, mh, fi⟩ meta env ∧
    (∀ f ∈ (extractFrames ⟨q1, mw, mh, fi⟩ meta env).emitted,
      f.data.mime = "image/jpeg" ∧ f.data.quality = 0.3) ∧
    (∀ fl ∈ (extractFrames ⟨q1, mw, mh, fi⟩ meta env).flushes, ∀ b ∈ fl.blobs,
      b.format = "image/webp" ∧ b.quality = 0.8) := by
  refine ⟨?_, ?_, (extractFrames_spec _ meta env).2.2.2.2⟩
  · unfold extractFrames
    dsimp only
    rw [extractLoop_interval_congr (resolveOptions ⟨q1, mw, mh, fi⟩)
      (resolveOptions ⟨q2, mw, mh, fi⟩) rfl]
    rfl
  · intro f hf
    rw [(extractFrames_spec _ meta env).1, List.mem_map] at hf
    obtain ⟨i, -, hi⟩ := hf
    rw [← hi]
    exact ⟨rfl, rfl⟩

/-- C10 witness: two runs at quality 0.1 and 0.9 are identical, and a
concrete emitted frame's preview parameters are the fixed constants. -/
theorem claim_C10_witness :
    extractFrames ⟨some 0.1, none, none, none⟩ (metaOf 3) envAllOk =
      extractFrames ⟨some 0.9, none, none, none⟩ (metaOf 3) envAllOk ∧
    ((mkFrame (resolveOptions ⟨some 0.1, none, none, none⟩) 0).data.mime =
      "image/jpeg" ∧
     (mkFrame (resolveOptions ⟨some 0.1, none, none, none⟩) 0).data.quality = 0.3) := by
  have h := claim_C10 (some 0.1) (some 0.9) none none none (metaOf 3) envAllOk
  refine ⟨h.1, h.2.1 _ ?_⟩
  rw [extractFrames_allOk_with_rem _ _ _ (envAllOk_ok _) (by decide)]
  exact List.mem_map_of_mem _ (by decide)

end VideoSearch
